import Mathlib

attribute [local semireducible] Rat.add Rat.mul Rat.inv Rat.sub

/-!
Verification of the bbc trading-bot core (strategy analysis engine and
connection monitor) against its natural-language specification.

The embedding models the Python sources:
  * `src/strategy/donchian_strategy.py` (indicators, signals, position sizing)
  * `src/strategy/base_strategy.py`     (analyze orchestration, caches,
                                         multi-timeframe confirmation)
  * `src/utils/decorators.py`           (handle_errors)
  * `src/api/websocket.py`              (connection monitor loop)

Conventions of the embedding:
  * pandas floats are modelled by `ℚ`; a missing value (pandas `NaN`, as
    produced by a rolling window that is not yet full or by `shift`) is
    modelled by `none : Option ℚ`.  A comparison against a missing value is
    `false`, exactly as a comparison against `NaN` is `False` in Python.
  * Python `None` (as in `previous_close = ... if len(df) > 1 else None`) is
    also `none`, but comparing it raises `TypeError`; the signal-condition
    helpers reproduce that by returning `Except.error`.
  * Division by zero (pandas maps it to `inf`/`NaN`) is modelled as a missing
    value; every claim is evaluated on inputs whose denominators are nonzero.
  * Fallible code returns `Except String`; the `handle_errors` decorator turns
    an exceptional outcome into Python's `None`, modelled by `Option`.
-/

/-! ### Missing-value (NaN) arithmetic on `Option ℚ` -/

/-- Addition propagating missing values, like float arithmetic with NaN. -/
def oadd : Option ℚ → Option ℚ → Option ℚ
  | some a, some b => some (a + b)
  | _, _ => none

/-- Subtraction propagating missing values. -/
def osub : Option ℚ → Option ℚ → Option ℚ
  | some a, some b => some (a - b)
  | _, _ => none

/-- Multiplication propagating missing values. -/
def omul : Option ℚ → Option ℚ → Option ℚ
  | some a, some b => some (a * b)
  | _, _ => none

/-- Division; a zero denominator (pandas would give `inf`/`NaN`) is missing. -/
def odiv : Option ℚ → Option ℚ → Option ℚ
  | some a, some b => if b = 0 then none else some (a / b)
  | _, _ => none

/-- Absolute value propagating missing values. -/
def oabs : Option ℚ → Option ℚ
  | some a => some |a|
  | none => none

/-- Comparison `a > b` with NaN semantics: any comparison with a missing value is false. -/
def oGT : Option ℚ → Option ℚ → Bool
  | some a, some b => a > b
  | _, _ => false

/-- Comparison `a < b` with NaN semantics. -/
def oLT : Option ℚ → Option ℚ → Bool
  | some a, some b => a < b
  | _, _ => false

/-- Comparison `a ≤ b` with NaN semantics. -/
def oLE : Option ℚ → Option ℚ → Bool
  | some a, some b => a ≤ b
  | _, _ => false

/-- Comparison `a ≥ b` with NaN semantics. -/
def oGE : Option ℚ → Option ℚ → Bool
  | some a, some b => a ≥ b
  | _, _ => false

/-- Python's `min(a, x)` where `x` may be NaN: `min` keeps the first argument
unless the comparison `x < a` succeeds, so `min(a, NaN) = a`. -/
def pymin (a : ℚ) : Option ℚ → ℚ
  | none => a
  | some x => if x < a then x else a

/-! ### Python `round` (banker's rounding) on exact decimals -/

/-- Round half to even, as Python's builtin `round` does on the idealized
decimal value (binary floating-point artifacts are out of scope). -/
def roundHalfEven (q : ℚ) : ℤ :=
  let f : ℤ := Rat.floor q
  let frac : ℚ := q - f
  if frac < 1/2 then f
  else if frac > 1/2 then f + 1
  else if f % 2 = 0 then f else f + 1

/-- Python's `round(x, n)` for nonnegative `n`. -/
def pyRound (x : ℚ) (n : ℕ) : ℚ :=
  (roundHalfEven (x * 10 ^ n) : ℚ) / 10 ^ n

/-! ### Candle windows (`CandleWindow` of the data model) -/

/-- One OHLCV bar (a row of the pandas DataFrame). `opn` renders the `open`
column (`open` is a Lean keyword). -/
structure Candle where
  timestamp : ℚ
  opn : ℚ
  high : ℚ
  low : ℚ
  close : ℚ
  volume : ℚ
deriving DecidableEq, Repr

/-- The ascending sort `df.sort_values("timestamp", ascending=True)` (stable). -/
def sortAsc (df : List Candle) : List Candle :=
  List.insertionSort (fun a b => a.timestamp ≤ b.timestamp) df

/-- The descending sort `df.sort_values("timestamp", ascending=False)`. -/
def sortDesc (df : List Candle) : List Candle :=
  List.insertionSort (fun a b => b.timestamp ≤ a.timestamp) df

/-! ### Rolling-window helpers (pandas `Series.rolling`) -/

/-- The last `n` entries of a list (the window ending at the last row). -/
def lastN (n : ℕ) (xs : List ℚ) : List ℚ := xs.drop (xs.length - n)

/-- Maximum of a list; only ever applied to nonempty windows. -/
def listMax : List ℚ → ℚ
  | [] => 0
  | h :: t => t.foldl max h

/-- Minimum of a list; only ever applied to nonempty windows. -/
def listMin : List ℚ → ℚ
  | [] => 0
  | h :: t => t.foldl min h

/-- Arithmetic mean of a list; only ever applied to nonempty windows. -/
def listMean (xs : List ℚ) : ℚ := xs.sum / xs.length

/-- The series `series.rolling(window=w).f()`: entry `i` is `f` of the `w`
entries ending at `i`, or missing while fewer than `w` entries exist. -/
def rollingApply (w : ℕ) (f : List ℚ → ℚ) (xs : List ℚ) : List (Option ℚ) :=
  (List.range xs.length).map fun i =>
    if w ≤ i + 1 then some (f ((xs.take (i+1)).drop (i+1-w))) else none

/-- The scalar `series.rolling(window=w).f().iloc[-1]`: the rolling value at the last
row, missing when the series is shorter than the window. -/
def rollLast (w : ℕ) (f : List ℚ → ℚ) (xs : List ℚ) : Option ℚ :=
  if w ≤ xs.length then some (f (lastN w xs)) else none

/-- The scalar `series.shift(p).iloc[-1]`: the value `p` rows before the last one. -/
def shiftLast (p : ℕ) (xs : List ℚ) : Option ℚ :=
  if p < xs.length then xs[xs.length - 1 - p]? else none

/-- True range of every bar after the first, against the previous close:
`max(high - low, |high - prev_close|, |low - prev_close|)`. -/
def trGo (prev : Candle) : List Candle → List ℚ
  | [] => []
  | c :: t =>
      max (c.high - c.low) (max |c.high - prev.close| |c.low - prev.close|) :: trGo c t

/-- The true-range series `tr` of `calculate_indicators`: on the first row
`shift(1)` is missing, and the row-wise max skips the missing entries, so the
first true range is just `high - low`. -/
def trList : List Candle → List ℚ
  | [] => []
  | b :: t => (b.high - b.low) :: trGo b t

/-! ### `DonchianStrategy` parameters (constructor defaults) -/

def donchian_period : ℕ := 20
def donchian_exit_period : ℕ := 10
def donchian_atr_period : ℕ := 14
def atr_multiplier : ℚ := 2
def volume_threshold : ℚ := 3/2

/-- Source `DonchianStrategy.get_min_required_candles`:
`max(period, atr_period) + 10`. -/
def get_min_required_candles : ℕ := max donchian_period donchian_atr_period + 10

/-! ### `DonchianStrategy.calculate_indicators` -/

/-- The scalar part of the indicator dictionary (`iloc[-1]` values) together
with the series kept for charting. -/
structure Ind where
  highest_high : Option ℚ
  lowest_low : Option ℚ
  middle_line : Option ℚ
  exit_high : Option ℚ
  exit_low : Option ℚ
  atr : Option ℚ
  volume_ratio : Option ℚ
  trend_up : Bool
  volatility : Option ℚ
  stop_loss_long : Option ℚ
  stop_loss_short : Option ℚ
  take_profit_long : Option ℚ
  take_profit_short : Option ℚ
  roc : Option ℚ
  highest_high_series : List (Option ℚ)
  lowest_low_series : List (Option ℚ)
  middle_line_series : List (Option ℚ)
  atr_series : List (Option ℚ)
  close : ℚ
  timestamp : Option ℚ
deriving DecidableEq, Repr

/-- Source `DonchianStrategy.calculate_indicators`.  Sorts ascending by timestamp,
computes the Donchian channels, exit channel, ATR, volume ratio, SMA trend
filter, volatility, stop/take levels and rate of change, and reads each
scalar off the last row (`iloc[-1]`, an `IndexError` on an empty frame). -/
def calculate_indicators (df : List Candle) : Except String Ind :=
  match (sortAsc df).getLast? with
  | none => .error "IndexError: single positional indexer is out-of-bounds"
  | some lastBar =>
    let d := sortAsc df
    let highs := d.map (·.high)
    let lows := d.map (·.low)
    let closes := d.map (·.close)
    let volumes := d.map (·.volume)
    let hh := rollLast donchian_period listMax highs
    let ll := rollLast donchian_period listMin lows
    let atr := rollLast donchian_atr_period listMean (trList d)
    .ok {
      highest_high := hh
      lowest_low := ll
      middle_line := omul (oadd hh ll) (some (1/2))
      exit_high := rollLast donchian_exit_period listMax highs
      exit_low := rollLast donchian_exit_period listMin lows
      atr := atr
      volume_ratio := odiv (some lastBar.volume) (rollLast donchian_period listMean volumes)
      trend_up := oGT (rollLast 20 listMean closes) (rollLast 50 listMean closes)
      volatility := omul (odiv atr (some lastBar.close)) (some 100)
      stop_loss_long := osub (some lastBar.close) (omul atr (some atr_multiplier))
      stop_loss_short := oadd (some lastBar.close) (omul atr (some atr_multiplier))
      take_profit_long := oadd (some lastBar.close) (omul (omul atr (some atr_multiplier)) (some (3/2)))
      take_profit_short := osub (some lastBar.close) (omul (omul atr (some atr_multiplier)) (some (3/2)))
      roc := osub (odiv (some lastBar.close) (shiftLast donchian_period closes)) (some 1)
      highest_high_series := rollingApply donchian_period listMax highs
      lowest_low_series := rollingApply donchian_period listMin lows
      middle_line_series := List.zipWith (fun a b => omul (oadd a b) (some (1/2)))
        (rollingApply donchian_period listMax highs) (rollingApply donchian_period listMin lows)
      atr_series := rollingApply donchian_atr_period listMean (trList d)
      close := lastBar.close
      timestamp := some lastBar.timestamp
    }

/-! ### `DonchianStrategy.generate_signals` -/

/-- The signal dictionary returned by `generate_signals`.  The reason strings
keep the source's wording with the numeric interpolations elided. -/
structure Det where
  signal : String
  strength : Option ℚ
  reason : String
  price : ℚ
  highest_high : Option ℚ
  lowest_low : Option ℚ
  exit_high : Option ℚ
  exit_low : Option ℚ
  stop_loss_level : Option ℚ
  take_profit_level : Option ℚ
  atr : Option ℚ
  volume_ratio : Option ℚ
  trend_up : Bool
  risk_reward_ratio : ℚ
  last_candle : Option Candle
deriving DecidableEq, Repr

/-- Buy condition: `current_close > highest_high and previous_close <=
highest_high and volume_ratio > volume_threshold and trend_up`.  Comparing a
Python `None` previous close raises `TypeError`; it is only evaluated when
the first conjunct already holds. -/
def condBuy (cc : ℚ) (pc : Option ℚ) (hh vr : Option ℚ) (trend : Bool) : Except String Bool :=
  if oGT (some cc) hh then
    match pc with
    | none => .error "TypeError: not supported between NoneType and float"
    | some p => .ok (oLE (some p) hh && oGT vr (some volume_threshold) && trend)
  else .ok false

/-- Sell condition: symmetric cross below the lower band with volume
confirmation and a downward trend filter. -/
def condSell (cc : ℚ) (pc : Option ℚ) (ll vr : Option ℚ) (trend : Bool) : Except String Bool :=
  if oLT (some cc) ll then
    match pc with
    | none => .error "TypeError: not supported between NoneType and float"
    | some p => .ok (oGE (some p) ll && oGT vr (some volume_threshold) && !trend)
  else .ok false

/-- Exit-long condition: close crosses below the exit channel's low. -/
def condExitLong (cc : ℚ) (pc : Option ℚ) (xl : Option ℚ) : Except String Bool :=
  if oLT (some cc) xl then
    match pc with
    | none => .error "TypeError: not supported between NoneType and float"
    | some p => .ok (oGE (some p) xl)
  else .ok false

/-- Exit-short condition: close crosses above the exit channel's high. -/
def condExitShort (cc : ℚ) (pc : Option ℚ) (xh : Option ℚ) : Except String Bool :=
  if oGT (some cc) xh then
    match pc with
    | none => .error "TypeError: not supported between NoneType and float"
    | some p => .ok (oLE (some p) xh)
  else .ok false

/-- Buy strength: `min(0.9, 0.5 + volume_ratio/10 + (roc*10 if roc > 0 else 0)
+ volatility/100)`. -/
def buyStrength (ind : Ind) : Option ℚ :=
  some (pymin (9/10)
    (oadd (oadd (oadd (some (1/2)) (omul ind.volume_ratio (some (1/10))))
      (if oGT ind.roc (some 0) then omul ind.roc (some 10) else some 0))
      (omul ind.volatility (some (1/100)))))

/-- Sell strength: `min(0.9, 0.5 + volume_ratio/10 + (abs(roc)*10 if roc < 0
else 0) + volatility/100)`. -/
def sellStrength (ind : Ind) : Option ℚ :=
  some (pymin (9/10)
    (oadd (oadd (oadd (some (1/2)) (omul ind.volume_ratio (some (1/10))))
      (if oLT ind.roc (some 0) then omul (oabs ind.roc) (some 10) else some 0))
      (omul ind.volatility (some (1/100)))))

/-- The if/elif chain of `generate_signals` producing
`(signal, strength, reason)`; the signal starts as neutral and the first
matching rule wins. -/
def signalTriple (cc : ℚ) (pc : Option ℚ) (ind : Ind) :
    Except String (String × Option ℚ × String) := do
  let bBuy ← condBuy cc pc ind.highest_high ind.volume_ratio ind.trend_up
  if bBuy then
    pure ("buy", buyStrength ind,
      "Ausbruch über Donchian-Oberband mit erhöhtem Volumen im Aufwärtstrend")
  else do
  let bSell ← condSell cc pc ind.lowest_low ind.volume_ratio ind.trend_up
  if bSell then
    pure ("sell", sellStrength ind,
      "Ausbruch unter Donchian-Unterband mit erhöhtem Volumen im Abwärtstrend")
  else do
  let bXL ← condExitLong cc pc ind.exit_low
  if bXL then
    pure ("exit_long", some (7/10), "Preis unterhalb des kurzfristigen Tiefs")
  else do
  let bXS ← condExitShort cc pc ind.exit_high
  if bXS then
    pure ("exit_short", some (7/10), "Preis oberhalb des kurzfristigen Hochs")
  else
  if oGT (some cc) (osub ind.highest_high (omul ind.atr (some (1/2)))) &&
      oLT (some cc) ind.highest_high then
    pure ("buy_weak", some (3/10), "Annäherung an obere Kanalbegrenzung")
  else if oLT (some cc) (oadd ind.lowest_low (omul ind.atr (some (1/2)))) &&
      oGT (some cc) ind.lowest_low then
    pure ("sell_weak", some (3/10), "Annäherung an untere Kanalbegrenzung")
  else
    pure ("neutral", some 0, "Keine klaren Signale")

/-- The value `previous_close = df["close"].iloc[1] if len(df) > 1 else None`, given
the tail of the descending ordering. -/
def prevClose : List Candle → Option ℚ
  | p :: _ => some p.close
  | [] => none

/-- The details dictionary assembled at the end of `generate_signals` from
the final `(signal, strength, reason)` triple; stop-loss and take-profit
levels are attached only to buy/sell signals. -/
def mkDetails (b : Candle) (ind : Ind) (t : String × Option ℚ × String) : Det :=
  { signal := t.1
    strength := t.2.1
    reason := t.2.2
    price := b.close
    highest_high := ind.highest_high
    lowest_low := ind.lowest_low
    exit_high := ind.exit_high
    exit_low := ind.exit_low
    stop_loss_level :=
      if t.1 = "buy" then ind.stop_loss_long
      else if t.1 = "sell" then ind.stop_loss_short else none
    take_profit_level :=
      if t.1 = "buy" then ind.take_profit_long
      else if t.1 = "sell" then ind.take_profit_short else none
    atr := ind.atr
    volume_ratio := ind.volume_ratio
    trend_up := ind.trend_up
    risk_reward_ratio := 3/2
    last_candle := some b }

/-- Source `DonchianStrategy.generate_signals`.  Sorts descending (newest first),
reads the current and previous close, runs the rule chain, and assembles the
details dictionary; `iloc[0]` on an empty frame is an `IndexError`. -/
def generate_signals (df : List Candle) (ind : Ind) : Except String Det :=
  match sortDesc df with
  | [] => .error "IndexError: single positional indexer is out-of-bounds"
  | b :: rest =>
      (signalTriple b.close (prevClose rest) ind).map (mkDetails b ind)

/-- The indicator-then-signal pipeline
`generate_signals(df, calculate_indicators(df))`, as composed by `analyze`. -/
def donchianPipeline (df : List Candle) : Except String Det := do
  let i ← calculate_indicators df
  generate_signals df i

/-! ### `DonchianStrategy.calculate_position_size` -/

/-- The position-sizing result; the error dictionaries of the source carry
only `position_size` and `error`, so every other field is `none` there. -/
structure PositionSizing where
  position_size : ℚ
  risk_per_unit : Option ℚ
  actual_risk_amount : Option ℚ
  risk_percent : Option ℚ
  entry_price : Option ℚ
  stop_loss : Option ℚ
  error : Option String
deriving DecidableEq, Repr

/-- The error dictionary `{"position_size": 0, "error": msg}`. -/
def sizingError (msg : String) : PositionSizing :=
  { position_size := 0, risk_per_unit := none, actual_risk_amount := none,
    risk_percent := none, entry_price := none, stop_loss := none,
    error := some msg }

/-- Rounding precision by price magnitude: 3 decimals below 1, 2 below 10,
1 below 1000, whole units above. -/
def roundPrecision (price : ℚ) : ℕ :=
  if price < 1 then 3 else if price < 10 then 2 else if price < 1000 then 1 else 0

/-- The size before rounding: `risk_amount / risk_per_unit`, capped by
`account_size * (max_risk_percent / 100) / risk_per_unit` when an account
size is supplied (`if position_size > max_position_size`). -/
def sizeBeforeRound (price stop_loss risk_amount : ℚ) (account_size : Option ℚ)
    (max_risk_percent : ℚ) : ℚ :=
  let risk_per_unit := |price - stop_loss|
  let position_size := risk_amount / risk_per_unit
  match account_size with
  | some acct =>
      let max_risk_amount := acct * (max_risk_percent / 100)
      let max_position_size := max_risk_amount / risk_per_unit
      if position_size > max_position_size then max_position_size else position_size
  | none => position_size

/-- Source `DonchianStrategy.calculate_position_size`. -/
def calculate_position_size (price stop_loss risk_amount : ℚ)
    (account_size : Option ℚ) (max_risk_percent : ℚ) : PositionSizing :=
  let risk_per_unit := |price - stop_loss|
  if risk_per_unit ≤ 0 then
    sizingError "Stop-Loss ist zu nah am Eintrittspreis"
  else
    let position_size :=
      pyRound (sizeBeforeRound price stop_loss risk_amount account_size max_risk_percent)
        (roundPrecision price)
    if position_size ≤ 0 then
      sizingError "Berechnete Positionsgröße ist zu klein"
    else
      let actual_risk_amount := position_size * risk_per_unit
      { position_size := position_size
        risk_per_unit := some risk_per_unit
        actual_risk_amount := some actual_risk_amount
        risk_percent :=
          match account_size with
          | some acct => if acct = 0 then none else some (actual_risk_amount / acct * 100)
          | none => none
        entry_price := some price
        stop_loss := some stop_loss
        error := none }

/-! ### `handle_errors` and `BaseStrategy.analyze` -/

/-- The `handle_errors` decorator: an exception is caught, logged, and turned
into Python's `None` return value. -/
def handleErrors {α : Type} : Except String α → Option α
  | .ok a => some a
  | .error _ => none

/-- The value stored under `"indicators"` in the analysis result: the early
returns store an empty dict, the main path stores the (possibly `None`)
result of the decorated `calculate_indicators`. -/
inductive IndVal where
  | emptyDict
  | pynone
  | val (i : Ind)
deriving DecidableEq, Repr

/-- The dictionary returned by `BaseStrategy.analyze`; `error` is `none`
exactly when the dictionary has no `"error"` key. -/
structure AnalyzeResult where
  signal : String
  strength : Option ℚ
  indicators : IndVal
  timestamp : ℕ
  symbol : String
  timeframe : String
  strategy : String
  error : Option String
deriving DecidableEq, Repr

/-- The strategy's per-symbol caches (`self.indicators`,
`self.cached_signals`, `self.last_update_time`).  A key maps to `none` when
absent; a stored value is itself optional because a failed computation stores
Python's `None` under the key. -/
structure StratState where
  indicators : String → Option (Option Ind)
  cached_signals : String → Option (Option Det)
  last_update_time : String → Option ℕ

/-- The empty caches of a fresh strategy instance. -/
def st0 : StratState :=
  { indicators := fun _ => none, cached_signals := fun _ => none,
    last_update_time := fun _ => none }

/-- The caches after the main path of `analyze`: the symbol's indicator
entry, signal entry and update time are all overwritten by this call (the
source writes them at lines 115, 121 and 122; between the first and the last
write only the strategy's own decorated methods run, so the state a caller
can observe when `analyze` returns always carries all three together). -/
def analyzeMainState (st : StratState) (symbol : String) (ind : Option Ind)
    (sig : Option Det) (now : ℕ) : StratState :=
  { indicators := Function.update st.indicators symbol (some ind)
    cached_signals := Function.update st.cached_signals symbol (some sig)
    last_update_time := Function.update st.last_update_time symbol (some now) }

/-- Source `BaseStrategy.analyze`, parameterized over the abstract
`calculate_indicators` and `generate_signals` (each already wrapped by
`handle_errors`, hence `Except`-valued, turned into `Option` here) and over
`min_required_candles`.  `now` stands for `datetime.now()`.

Control flow of the source: empty frame → neutral result without an error
tag; fewer than the required candles → neutral result with an error tag; else
sort descending, compute indicators (cached), compute signals (cached, with
the update time), and build the combined record — `signals.get(...)` on a
`None` signals value raises, which the outer `handle_errors` converts into a
`None` return, the caches staying as written. -/
def analyzeGen (calcInd : List Candle → Except String Ind)
    (gen : List Candle → Option Ind → Except String Det)
    (minReq : ℕ) (tf nm : String) (df : List Candle) (symbol : String)
    (st : StratState) (now : ℕ) : Option AnalyzeResult × StratState :=
  if df.isEmpty then
    (some { signal := "neutral", strength := some 0, indicators := .emptyDict,
            timestamp := now, symbol := symbol, timeframe := tf, strategy := nm,
            error := none }, st)
  else if df.length < minReq then
    (some { signal := "neutral", strength := some 0, indicators := .emptyDict,
            timestamp := now, symbol := symbol, timeframe := tf, strategy := nm,
            error := some "Zu wenig Daten" }, st)
  else
    (match handleErrors (gen (sortDesc df) (handleErrors (calcInd (sortDesc df)))) with
     | none => none
     | some s =>
        some { signal := s.signal, strength := s.strength,
               indicators :=
                 match handleErrors (calcInd (sortDesc df)) with
                 | none => .pynone
                 | some i => .val i,
               timestamp := now, symbol := symbol, timeframe := tf,
               strategy := nm, error := none },
     analyzeMainState st symbol (handleErrors (calcInd (sortDesc df)))
       (handleErrors (gen (sortDesc df) (handleErrors (calcInd (sortDesc df))))) now)

/-- Source `DonchianStrategy.generate_signals` as invoked by `analyze` with the
(possibly `None`) decorated indicator result: subscripting `None` raises a
`TypeError` inside the decorated method. -/
def donchianGenGuard (df : List Candle) : Option Ind → Except String Det
  | none => .error "TypeError: NoneType object is not subscriptable"
  | some i => generate_signals df i

/-- The `analyze` of the concrete `DonchianStrategy` instance
(timeframe 15m, `min_required_candles = 30`). -/
def analyzeDonchian (df : List Candle) (symbol : String) (st : StratState)
    (now : ℕ) : Option AnalyzeResult × StratState :=
  analyzeGen calculate_indicators donchianGenGuard get_min_required_candles
    "15m" "DonchianChannel" df symbol st now

/-! ### `BaseStrategy.check_multi_timeframe_confirmation` -/

/-- A Python value passed positionally: the confirmation loop passes the
symbol string where `analyze` expects a DataFrame. -/
inductive PyVal where
  | df (rows : List Candle)
  | str (s : String)
deriving DecidableEq, Repr

/-- The call to `analyze` under Python's dynamic typing: on a string argument the very
first attribute access `df.empty` raises `AttributeError`, which the
`handle_errors` decorator converts into a `None` return before any cache is
touched. -/
def analyzeDonchianDyn (dfArg symArg : PyVal) (st : StratState) (now : ℕ) :
    Option AnalyzeResult × StratState :=
  match dfArg, symArg with
  | .str _, _ => (none, st)
  | .df rows, .str s => analyzeDonchian rows s st now
  | .df rows, .df _ => analyzeDonchian rows "UNKNOWN" st now

/-- The timeframe ladder `["15", "60", "240", "D"]`. -/
def intervalsLadder : List String := ["15", "60", "240", "D"]

/-- The timeframes checked: those strictly after the base interval on the
ladder, or all but the finest when the base is not on the ladder. -/
def checkIntervalsFor (base : String) : List String :=
  match intervalsLadder.indexOf? base with
  | some i => intervalsLadder.drop (i + 1)
  | none => intervalsLadder.drop 1

/-- The dictionary returned by `check_multi_timeframe_confirmation`; a `none`
field renders a key absent from the dictionary. -/
structure ConfirmResult where
  confirmed : Bool
  confidence : Option ℚ
  confirmations : Option ℕ
  total_timeframes : Option ℕ
  error : Option String
deriving DecidableEq, Repr

/-- The per-timeframe loop: `result = self.analyze(symbol, interval)` (the
symbol string passed as the DataFrame argument), then
`result.get("signal", "neutral")` — an `AttributeError` when `analyze`
returned `None` — and a timeframe confirms when its signal equals the base
signal type or is neutral. -/
def confirmLoop (symbol signal_type : String) (now : ℕ) :
    List String → StratState → ℕ → Except String (ℕ × StratState)
  | [], st, acc => .ok (acc, st)
  | interval :: rest, st, acc =>
      let r := analyzeDonchianDyn (.str symbol) (.str interval) st now
      match r.1 with
      | none => .error "AttributeError: NoneType object has no attribute get"
      | some res =>
          let is_confirmed := res.signal = signal_type || res.signal = "neutral"
          confirmLoop symbol signal_type now rest r.2 (if is_confirmed then acc + 1 else acc)

/-- Source `BaseStrategy.check_multi_timeframe_confirmation`.  With no coarser
timeframe it returns early (`confirmed` true, `confirmations` 0, and no
`confidence` key); otherwise it runs the loop inside `try`, computing
`confidence = confirmations / len(check_intervals)` and
`confirmed = confidence >= 0.5`, while any exception yields
`{"confirmed": False, "error": str(e)}`. -/
def check_multi_timeframe_confirmation (symbol base_interval signal_type : String)
    (st : StratState) (now : ℕ) : ConfirmResult :=
  let check_intervals := checkIntervalsFor base_interval
  if check_intervals.isEmpty then
    { confirmed := true, confidence := none, confirmations := some 0,
      total_timeframes := none, error := none }
  else
    match confirmLoop symbol signal_type now check_intervals st 0 with
    | .error e =>
        { confirmed := false, confidence := none, confirmations := none,
          total_timeframes := none, error := some e }
    | .ok (conf, _) =>
        let ratio : ℚ := (conf : ℚ) / (check_intervals.length : ℚ)
        { confirmed := ratio ≥ 1/2, confidence := some ratio,
          confirmations := some conf,
          total_timeframes := some check_intervals.length, error := none }

/-! ### `BybitWebSocket._monitor_connection` -/

/-- Constant `self.reconnect_interval` (seconds). -/
def reconnect_interval : ℕ := 30

/-- Constant `self.ping_interval` (seconds). -/
def ping_interval : ℕ := 20

/-- Constant `max_consecutive_failures` of the monitor loop. -/
def max_consecutive_failures : ℕ := 5

/-- The monitor-relevant connection state: the consecutive-failure counter,
the running flag (written only by `close()`), and the last ping time. -/
structure WsState where
  reconnect_attempts : ℕ
  is_running : Bool
  last_ping_time : ℕ
deriving DecidableEq, Repr

/-- Observable effects of one loop iteration. -/
structure TickEffect where
  sleep : ℕ
  critical : Bool
  pinged : Bool
deriving DecidableEq, Repr

/-- One iteration of the `while self.is_running` body of
`_monitor_connection`, fed the observed liveness and the outcome a reconnect
attempt would have.  A failed reconnect increments the counter and sleeps
`reconnect_interval`, doubled together with a critical report once the
counter reaches `max_consecutive_failures`, then continues the loop; a
successful reconnect resets the counter and falls through to the heartbeat
check and the 10 s cadence sleep. -/
def monitorTick (s : WsState) (is_connected connect_success : Bool) (now : ℕ) :
    WsState × TickEffect :=
  if is_connected then
    if ping_interval < now - s.last_ping_time then
      ({ s with last_ping_time := now }, { sleep := 10, critical := false, pinged := true })
    else
      (s, { sleep := 10, critical := false, pinged := false })
  else if connect_success then
    if ping_interval < now - s.last_ping_time then
      ({ s with reconnect_attempts := 0, last_ping_time := now },
       { sleep := 10, critical := false, pinged := true })
    else
      ({ s with reconnect_attempts := 0 }, { sleep := 10, critical := false, pinged := false })
  else if max_consecutive_failures ≤ s.reconnect_attempts + 1 then
    ({ s with reconnect_attempts := s.reconnect_attempts + 1 },
     { sleep := reconnect_interval * 2, critical := true, pinged := false })
  else
    ({ s with reconnect_attempts := s.reconnect_attempts + 1 },
     { sleep := reconnect_interval, critical := false, pinged := false })

/-- The sleep durations produced by `n` consecutive reconnect failures. -/
def runFailures (s : WsState) : ℕ → List ℕ
  | 0 => []
  | n + 1 =>
      let r := monitorTick s false false 0
      r.2.sleep :: runFailures r.1 n

/-! ### General lemmas about the embedding -/

theorem foldl_max_init (l : List ℚ) : ∀ a : ℚ, a ≤ l.foldl max a := by
  induction l with
  | nil => intro a; exact le_refl a
  | cons h t ih =>
      intro a
      calc a ≤ max a h := le_max_left a h
        _ ≤ t.foldl max (max a h) := ih (max a h)

theorem foldl_max_mem (l : List ℚ) : ∀ (a x : ℚ), x ∈ l → x ≤ l.foldl max a := by
  induction l with
  | nil => intro a x hx; cases hx
  | cons h t ih =>
      intro a x hx
      rcases List.mem_cons.mp hx with rfl | hx
      · calc x ≤ max a x := le_max_right a x
          _ ≤ t.foldl max (max a x) := foldl_max_init t (max a x)
      · exact ih (max a h) x hx

theorem listMax_ge (l : List ℚ) (x : ℚ) (hx : x ∈ l) : x ≤ listMax l := by
  cases l with
  | nil => cases hx
  | cons h t =>
      rcases List.mem_cons.mp hx with rfl | hx
      · exact foldl_max_init t x
      · exact foldl_max_mem t h x hx

theorem foldl_min_init (l : List ℚ) : ∀ a : ℚ, l.foldl min a ≤ a := by
  induction l with
  | nil => intro a; exact le_refl a
  | cons h t ih =>
      intro a
      calc t.foldl min (min a h) ≤ min a h := ih (min a h)
        _ ≤ a := min_le_left a h

theorem foldl_min_mem (l : List ℚ) : ∀ (a x : ℚ), x ∈ l → l.foldl min a ≤ x := by
  induction l with
  | nil => intro a x hx; cases hx
  | cons h t ih =>
      intro a x hx
      rcases List.mem_cons.mp hx with rfl | hx
      · calc t.foldl min (min a x) ≤ min a x := foldl_min_init t (min a x)
          _ ≤ x := min_le_right a x
      · exact ih (min a h) x hx

theorem listMin_le (l : List ℚ) (x : ℚ) (hx : x ∈ l) : listMin l ≤ x := by
  cases l with
  | nil => cases hx
  | cons h t =>
      rcases List.mem_cons.mp hx with rfl | hx
      · exact foldl_min_init t x
      · exact foldl_min_mem t h x hx

theorem listMean_nonneg (l : List ℚ) (h : ∀ x ∈ l, 0 ≤ x) : 0 ≤ listMean l := by
  unfold listMean
  exact div_nonneg (List.sum_nonneg h) (by positivity)

theorem getLast?_drop_eq (l : List ℚ) : ∀ k, k < l.length → (l.drop k).getLast? = l.getLast? := by
  induction l with
  | nil => intro k hk; simp at hk
  | cons a t ih =>
      intro k hk
      cases k with
      | zero => rfl
      | succ k =>
          have hk' : k < t.length := by simpa using hk
          have ht : t ≠ [] := by
            intro h; rw [h] at hk'; simp at hk'
          rw [List.drop_succ_cons, ih k hk']
          cases t with
          | nil => exact absurd rfl ht
          | cons b u => rfl

theorem lastN_getLast? (l : List ℚ) (n : ℕ) (hn : 1 ≤ n) (hl : l ≠ []) :
    (lastN n l).getLast? = l.getLast? := by
  unfold lastN
  apply getLast?_drop_eq
  have : 0 < l.length := List.length_pos.mpr hl
  omega

theorem mem_lastN_of_getLast? (l : List ℚ) (n : ℕ) (x : ℚ) (hn : 1 ≤ n)
    (hx : l.getLast? = some x) : x ∈ lastN n l := by
  have hl : l ≠ [] := by
    intro h; rw [h] at hx; simp at hx
  exact List.mem_of_getLast?_eq_some ((lastN_getLast? l n hn hl).trans hx)

theorem trGo_nonneg (l : List Candle) : ∀ (prev : Candle) (x : ℚ), x ∈ trGo prev l → 0 ≤ x := by
  induction l with
  | nil => intro prev x hx; cases hx
  | cons c t ih =>
      intro prev x hx
      rcases List.mem_cons.mp hx with rfl | hx
      · calc (0 : ℚ) ≤ |c.high - prev.close| := abs_nonneg _
          _ ≤ max |c.high - prev.close| |c.low - prev.close| := le_max_left _ _
          _ ≤ _ := le_max_right _ _
      · exact ih c x hx

theorem trGo_length (l : List Candle) : ∀ prev, (trGo prev l).length = l.length := by
  induction l with
  | nil => intro prev; rfl
  | cons c t ih => intro prev; simp [trGo, ih c]

theorem trList_length (l : List Candle) : (trList l).length = l.length := by
  cases l with
  | nil => rfl
  | cons b t => simp [trList, trGo_length t b]

theorem lastN_trList_nonneg (d : List Candle) (w : ℕ) (hw : w + 1 ≤ d.length) :
    ∀ x ∈ lastN w (trList d), 0 ≤ x := by
  intro x hx
  cases d with
  | nil => simp at hw
  | cons b t =>
      simp only [trList, lastN] at hx
      have hlen : (trGo b t).length = t.length := trGo_length t b
      have hw' : w ≤ t.length := by
        simp only [List.length_cons] at hw; omega
      have hidx : ((b.high - b.low) :: trGo b t).length - w = (t.length - w) + 1 := by
        simp only [List.length_cons, hlen]; omega
      rw [hidx, List.drop_succ_cons] at hx
      exact trGo_nonneg t b x (List.mem_of_mem_drop hx)

theorem pymin_le (a : ℚ) (x : Option ℚ) : pymin a x ≤ a := by
  cases x with
  | none => exact le_refl a
  | some v =>
      show (if v < a then v else a) ≤ a
      split
      · exact le_of_lt (by assumption)
      · exact le_refl a

theorem pymin_nonneg (a : ℚ) (ha : 0 ≤ a) (x : Option ℚ)
    (hx : ∀ v, x = some v → 0 ≤ v) : 0 ≤ pymin a x := by
  cases x with
  | none => exact ha
  | some v =>
      show (0 : ℚ) ≤ if v < a then v else a
      split
      · exact hx v rfl
      · exact ha

theorem oadd_eq_some (a b : Option ℚ) (x : ℚ) (h : oadd a b = some x) :
    ∃ xa xb, a = some xa ∧ b = some xb ∧ x = xa + xb := by
  cases a with
  | none => simp [oadd] at h
  | some xa =>
      cases b with
      | none => simp [oadd] at h
      | some xb =>
          refine ⟨xa, xb, rfl, rfl, ?_⟩
          simpa [oadd] using h.symm

theorem omul_eq_some (a b : Option ℚ) (x : ℚ) (h : omul a b = some x) :
    ∃ xa xb, a = some xa ∧ b = some xb ∧ x = xa * xb := by
  cases a with
  | none => simp [omul] at h
  | some xa =>
      cases b with
      | none => simp [omul] at h
      | some xb =>
          refine ⟨xa, xb, rfl, rfl, ?_⟩
          simpa [omul] using h.symm

theorem odiv_eq_some (a b : Option ℚ) (x : ℚ) (h : odiv a b = some x) :
    ∃ xa xb, a = some xa ∧ b = some xb ∧ xb ≠ 0 ∧ x = xa / xb := by
  cases a with
  | none => simp [odiv] at h
  | some xa =>
      cases b with
      | none => simp [odiv] at h
      | some xb =>
          by_cases hb : xb = 0
          · simp [odiv, hb] at h
          · refine ⟨xa, xb, rfl, rfl, hb, ?_⟩
            simp [odiv, hb] at h
            exact h.symm

theorem oGT_eq_true (a b : Option ℚ) (h : oGT a b = true) :
    ∃ xa xb, a = some xa ∧ b = some xb ∧ xb < xa := by
  cases a with
  | none => simp [oGT] at h
  | some xa =>
      cases b with
      | none => simp [oGT] at h
      | some xb =>
          refine ⟨xa, xb, rfl, rfl, ?_⟩
          simpa [oGT] using h

theorem oLT_eq_true (a b : Option ℚ) (h : oLT a b = true) :
    ∃ xa xb, a = some xa ∧ b = some xb ∧ xa < xb := by
  cases a with
  | none => simp [oLT] at h
  | some xa =>
      cases b with
      | none => simp [oLT] at h
      | some xb =>
          refine ⟨xa, xb, rfl, rfl, ?_⟩
          simpa [oLT] using h

theorem rollLast_eq_some (w : ℕ) (f : List ℚ → ℚ) (xs : List ℚ) (v : ℚ)
    (h : rollLast w f xs = some v) : w ≤ xs.length ∧ v = f (lastN w xs) := by
  unfold rollLast at h
  split at h
  · exact ⟨by assumption, by simpa using h.symm⟩
  · simp at h

/-! ### Sorting on strictly ascending windows -/

/-- On a window whose timestamps strictly increase — the data model's
`CandleWindow` shape — the ascending sort is the identity. -/
theorem sortAsc_of_strictAsc (df : List Candle)
    (h : df.Pairwise (fun a b => a.timestamp < b.timestamp)) : sortAsc df = df :=
  List.Sorted.insertionSort_eq (h.imp le_of_lt)

theorem orderedInsert_eq_append (a : Candle) (l : List Candle)
    (h : ∀ x ∈ l, ¬ (a.timestamp ≥ x.timestamp)) :
    List.orderedInsert (fun u v : Candle => v.timestamp ≤ u.timestamp) a l = l ++ [a] := by
  induction l with
  | nil => rfl
  | cons b t ih =>
      have hb : ¬ (b.timestamp ≤ a.timestamp) := h b (List.mem_cons_self b t)
      simp only [List.orderedInsert, if_neg hb]
      rw [ih fun x hx => h x (List.mem_cons_of_mem b hx)]
      rfl

/-- On a strictly ascending window the descending sort is the reversal. -/
theorem sortDesc_of_strictAsc (df : List Candle)
    (h : df.Pairwise (fun a b => a.timestamp < b.timestamp)) : sortDesc df = df.reverse := by
  induction df with
  | nil => rfl
  | cons a t ih =>
      have hc := List.pairwise_cons.mp h
      rw [List.reverse_cons]
      show List.orderedInsert _ a (sortDesc t) = t.reverse ++ [a]
      rw [ih hc.2]
      exact orderedInsert_eq_append a t.reverse
        (fun x hx => not_le_of_lt (hc.1 x (List.mem_reverse.mp hx)))

/-! ### Reading off `calculate_indicators` -/

/-- What a successful `calculate_indicators` call contains: the last bar of
the ascending ordering, and each scalar indicator as the last rolling value. -/
theorem calculate_indicators_ok (df : List Candle) (i : Ind)
    (h : calculate_indicators df = .ok i) :
    ∃ b, (sortAsc df).getLast? = some b ∧
      i.highest_high = rollLast donchian_period listMax ((sortAsc df).map (·.high)) ∧
      i.lowest_low = rollLast donchian_period listMin ((sortAsc df).map (·.low)) ∧
      i.exit_high = rollLast donchian_exit_period listMax ((sortAsc df).map (·.high)) ∧
      i.exit_low = rollLast donchian_exit_period listMin ((sortAsc df).map (·.low)) ∧
      i.atr = rollLast donchian_atr_period listMean (trList (sortAsc df)) ∧
      i.volume_ratio = odiv (some b.volume)
        (rollLast donchian_period listMean ((sortAsc df).map (·.volume))) ∧
      i.volatility = omul (odiv i.atr (some b.close)) (some 100) ∧
      i.roc = osub (odiv (some b.close) (shiftLast donchian_period ((sortAsc df).map (·.close)))) (some 1) ∧
      i.close = b.close := by
  unfold calculate_indicators at h
  split at h
  · exact absurd h (by simp)
  · rename_i b heq
    injection h with h
    subst h
    exact ⟨b, heq, rfl, rfl, rfl, rfl, rfl, rfl, rfl, rfl, rfl⟩

/-- The current close can never strictly exceed the last rolling maximum of a
series whose last entry dominates it: the window includes the current bar. -/
theorem oGT_rollLast_max_false (xs : List ℚ) (c x : ℚ) (hx : xs.getLast? = some x)
    (hcx : c ≤ x) (w : ℕ) (hw : 1 ≤ w) : oGT (some c) (rollLast w listMax xs) = false := by
  unfold rollLast
  split
  · have hmem : x ∈ lastN w xs := mem_lastN_of_getLast? xs w x hw hx
    have hle : c ≤ listMax (lastN w xs) := le_trans hcx (listMax_ge _ x hmem)
    simp [oGT, not_lt_of_le hle]
  · rfl

/-- Symmetrically, the current close can never fall strictly below the last
rolling minimum of a series whose last entry it dominates. -/
theorem oLT_rollLast_min_false (xs : List ℚ) (c x : ℚ) (hx : xs.getLast? = some x)
    (hxc : x ≤ c) (w : ℕ) (hw : 1 ≤ w) : oLT (some c) (rollLast w listMin xs) = false := by
  unfold rollLast
  split
  · have hmem : x ∈ lastN w xs := mem_lastN_of_getLast? xs w x hw hx
    have hle : listMin (lastN w xs) ≤ c := le_trans (listMin_le _ x hmem) hxc
    simp [oLT, not_lt_of_le hle]
  · rfl

/-! ### Reading off the signal-rule chain -/

theorem condBuy_ok_true (cc : ℚ) (pc : Option ℚ) (hh vr : Option ℚ) (trend : Bool)
    (h : condBuy cc pc hh vr trend = .ok true) :
    oGT (some cc) hh = true ∧ oGT vr (some volume_threshold) = true := by
  unfold condBuy at h
  split at h
  · cases pc with
    | none => exact absurd h (by simp)
    | some p =>
        injection h with h
        simp only [Bool.and_eq_true] at h
        exact ⟨by assumption, h.1.2⟩
  · injection h with h; cases h

theorem condSell_ok_true (cc : ℚ) (pc : Option ℚ) (ll vr : Option ℚ) (trend : Bool)
    (h : condSell cc pc ll vr trend = .ok true) :
    oLT (some cc) ll = true ∧ oGT vr (some volume_threshold) = true := by
  unfold condSell at h
  split at h
  · cases pc with
    | none => exact absurd h (by simp)
    | some p =>
        injection h with h
        simp only [Bool.and_eq_true] at h
        exact ⟨by assumption, h.1.2⟩
  · injection h with h; cases h

theorem condBuy_false_of_not_cross (cc : ℚ) (pc : Option ℚ) (hh vr : Option ℚ) (trend : Bool)
    (h : oGT (some cc) hh = false) : condBuy cc pc hh vr trend = .ok false := by
  unfold condBuy
  rw [h]
  rfl

theorem condSell_false_of_not_cross (cc : ℚ) (pc : Option ℚ) (ll vr : Option ℚ) (trend : Bool)
    (h : oLT (some cc) ll = false) : condSell cc pc ll vr trend = .ok false := by
  unfold condSell
  rw [h]
  rfl

theorem condExitLong_false_of_not_cross (cc : ℚ) (pc : Option ℚ) (xl : Option ℚ)
    (h : oLT (some cc) xl = false) : condExitLong cc pc xl = .ok false := by
  unfold condExitLong
  rw [h]
  rfl

theorem condExitShort_false_of_not_cross (cc : ℚ) (pc : Option ℚ) (xh : Option ℚ)
    (h : oGT (some cc) xh = false) : condExitShort cc pc xh = .ok false := by
  unfold condExitShort
  rw [h]
  rfl

theorem ok_bind {α β : Type} (a : α) (f : α → Except String β) :
    ((Except.ok a : Except String α) >>= f) = f a := rfl

theorem error_bind {α β : Type} (e : String) (f : α → Except String β) :
    ((Except.error e : Except String α) >>= f) = Except.error e := rfl

/-- Case analysis on a successful run of the signal-rule chain: a buy carries
`buyStrength` and a true buy condition, a sell carries `sellStrength` and a
true sell condition, and every other branch has a fixed strength. -/
theorem signalTriple_ok_cases (cc : ℚ) (pc : Option ℚ) (ind : Ind)
    (sg : String) (stg : Option ℚ) (rsn : String)
    (h : signalTriple cc pc ind = .ok (sg, stg, rsn)) :
    (sg = "buy" ∧ stg = buyStrength ind ∧
       condBuy cc pc ind.highest_high ind.volume_ratio ind.trend_up = .ok true) ∨
    (sg = "sell" ∧ stg = sellStrength ind ∧
       condSell cc pc ind.lowest_low ind.volume_ratio ind.trend_up = .ok true) ∨
    stg = some (7/10) ∨ stg = some (3/10) ∨ stg = some 0 := by
  unfold signalTriple at h
  cases hb : condBuy cc pc ind.highest_high ind.volume_ratio ind.trend_up with
  | error e => rw [hb, error_bind] at h; exact absurd h (by simp)
  | ok bBuy =>
    rw [hb, ok_bind] at h
    cases bBuy with
    | true =>
        rw [if_pos rfl] at h
        injection h with h
        injection h with e1 h
        injection h with e2 e3
        exact Or.inl ⟨e1.symm, e2.symm, rfl⟩
    | false =>
        rw [if_neg (by simp)] at h
        cases hs : condSell cc pc ind.lowest_low ind.volume_ratio ind.trend_up with
        | error e => rw [hs, error_bind] at h; exact absurd h (by simp)
        | ok bSell =>
          rw [hs, ok_bind] at h
          cases bSell with
          | true =>
              rw [if_pos rfl] at h
              injection h with h
              injection h with e1 h
              injection h with e2 e3
              exact Or.inr (Or.inl ⟨e1.symm, e2.symm, rfl⟩)
          | false =>
              rw [if_neg (by simp)] at h
              cases hxl : condExitLong cc pc ind.exit_low with
              | error e => rw [hxl, error_bind] at h; exact absurd h (by simp)
              | ok bXL =>
                rw [hxl, ok_bind] at h
                cases bXL with
                | true =>
                    rw [if_pos rfl] at h
                    injection h with h
                    injection h with e1 h
                    injection h with e2 e3
                    exact Or.inr (Or.inr (Or.inl e2.symm))
                | false =>
                    rw [if_neg (by simp)] at h
                    cases hxs : condExitShort cc pc ind.exit_high with
                    | error e => rw [hxs, error_bind] at h; exact absurd h (by simp)
                    | ok bXS =>
                      rw [hxs, ok_bind] at h
                      cases bXS with
                      | true =>
                          rw [if_pos rfl] at h
                          injection h with h
                          injection h with e1 h
                          injection h with e2 e3
                          exact Or.inr (Or.inr (Or.inl e2.symm))
                      | false =>
                          rw [if_neg (by simp)] at h
                          split at h
                          · injection h with h
                            injection h with e1 h
                            injection h with e2 e3
                            exact Or.inr (Or.inr (Or.inr (Or.inl e2.symm)))
                          · split at h
                            · injection h with h
                              injection h with e1 h
                              injection h with e2 e3
                              exact Or.inr (Or.inr (Or.inr (Or.inl e2.symm)))
                            · injection h with h
                              injection h with e1 h
                              injection h with e2 e3
                              exact Or.inr (Or.inr (Or.inr (Or.inr e2.symm)))

/-- When the close crosses none of the four channel bounds the chain can only
produce a weak or neutral signal. -/
theorem signalTriple_no_cross (cc : ℚ) (pc : Option ℚ) (ind : Ind)
    (h1 : oGT (some cc) ind.highest_high = false)
    (h2 : oLT (some cc) ind.lowest_low = false)
    (h3 : oLT (some cc) ind.exit_low = false)
    (h4 : oGT (some cc) ind.exit_high = false)
    (sg : String) (stg : Option ℚ) (rsn : String)
    (h : signalTriple cc pc ind = .ok (sg, stg, rsn)) :
    sg = "buy_weak" ∨ sg = "sell_weak" ∨ sg = "neutral" := by
  unfold signalTriple at h
  rw [condBuy_false_of_not_cross cc pc ind.highest_high ind.volume_ratio ind.trend_up h1,
      ok_bind, if_neg (by simp),
      condSell_false_of_not_cross cc pc ind.lowest_low ind.volume_ratio ind.trend_up h2,
      ok_bind, if_neg (by simp),
      condExitLong_false_of_not_cross cc pc ind.exit_low h3,
      ok_bind, if_neg (by simp),
      condExitShort_false_of_not_cross cc pc ind.exit_high h4,
      ok_bind, if_neg (by simp)] at h
  split at h
  · injection h with h
    injection h with e1 h
    exact Or.inl e1.symm
  · split at h
    · injection h with h
      injection h with e1 h
      exact Or.inr (Or.inl e1.symm)
    · injection h with h
      injection h with e1 h
      exact Or.inr (Or.inr e1.symm)

/-- Reading off a successful `generate_signals`: the descending ordering is
nonempty, the rule chain ran on its first two closes, and the record carries
the chain's signal and strength. -/
theorem generate_signals_ok (df : List Candle) (ind : Ind) (d : Det)
    (h : generate_signals df ind = .ok d) :
    ∃ b rest t, sortDesc df = b :: rest ∧
      signalTriple b.close (prevClose rest) ind = .ok t ∧
      d = mkDetails b ind t := by
  unfold generate_signals at h
  split at h
  · exact absurd h (by simp)
  · rename_i b rest heq
    cases ht : signalTriple b.close (prevClose rest) ind with
    | error e =>
        rw [ht] at h
        exact absurd h (by simp [Except.map])
    | ok t =>
        rw [ht] at h
        refine ⟨b, rest, t, heq, ht, ?_⟩
        have : Except.ok (mkDetails b ind t) = Except.ok d := h
        injection this with this
        exact this.symm

/-- The buy/sell strength sum `0.5 + volume_ratio/10 + momentum-term +
volatility/100` is nonnegative whenever it is defined, the volume-ratio
guard held, the momentum term is nonnegative and the volatility is
nonnegative. -/
theorem strengthSum_nonneg (vr rt vol : Option ℚ)
    (hvr : oGT vr (some volume_threshold) = true)
    (hrt : ∀ r, rt = some r → 0 ≤ r)
    (hvol : ∀ w, vol = some w → 0 ≤ w) :
    ∀ v, oadd (oadd (oadd (some (1/2)) (omul vr (some (1/10)))) rt)
        (omul vol (some (1/100))) = some v → 0 ≤ v := by
  intro v hv
  obtain ⟨x3, wt, hx3, hwt, hv3⟩ := oadd_eq_some _ _ _ hv
  obtain ⟨x2, r, hx2, hr, hv2⟩ := oadd_eq_some _ _ _ hx3
  obtain ⟨half, vt, hhalf, hvt, hv1⟩ := oadd_eq_some _ _ _ hx2
  obtain ⟨vrv, tenth, hvrv, htenth, hvteq⟩ := omul_eq_some _ _ _ hvt
  obtain ⟨w, hundredth, hw, hhundredth, hwteq⟩ := omul_eq_some _ _ _ hwt
  obtain ⟨vrv', thr, hvrv', hthr, hlt⟩ := oGT_eq_true _ _ hvr
  rw [hvrv] at hvrv'
  injection hvrv' with hvrv'
  injection hhalf with hhalf
  injection htenth with htenth
  injection hhundredth with hhundredth
  injection hthr with hthr
  have hrge := hrt r hr
  have hwge := hvol w hw
  have hvrpos : 0 < vrv := by
    have : volume_threshold < vrv := by rw [hvrv', hthr]; exact hlt
    have hth : (0 : ℚ) < volume_threshold := by norm_num [volume_threshold]
    linarith
  subst hv3 hv2 hv1 hvteq hwteq
  rw [← hhalf, ← htenth, ← hhundredth]
  nlinarith

/-- Defined-and-bounded buy strength under the volume guard. -/
theorem buyStrength_bound (ind : Ind)
    (hvr : oGT ind.volume_ratio (some volume_threshold) = true)
    (hvol : ∀ w, ind.volatility = some w → 0 ≤ w) :
    ∃ s, buyStrength ind = some s ∧ 0 ≤ s ∧ s ≤ 9/10 := by
  refine ⟨_, rfl, ?_, pymin_le _ _⟩
  apply pymin_nonneg _ (by norm_num)
  apply strengthSum_nonneg ind.volume_ratio _ ind.volatility hvr ?_ hvol
  intro r hr
  split at hr
  · rename_i hcond
    obtain ⟨r0, z, hr0, hz, hpos⟩ := oGT_eq_true _ _ hcond
    rw [hr0] at hr
    injection hz with hz
    injection hr with hr
    have : (0 : ℚ) < r0 := by rw [← hz] at hpos; exact hpos
    rw [← hr]
    positivity
  · injection hr with hr
    rw [← hr]

/-- Defined-and-bounded sell strength under the volume guard. -/
theorem sellStrength_bound (ind : Ind)
    (hvr : oGT ind.volume_ratio (some volume_threshold) = true)
    (hvol : ∀ w, ind.volatility = some w → 0 ≤ w) :
    ∃ s, sellStrength ind = some s ∧ 0 ≤ s ∧ s ≤ 9/10 := by
  refine ⟨_, rfl, ?_, pymin_le _ _⟩
  apply pymin_nonneg _ (by norm_num)
  apply strengthSum_nonneg ind.volume_ratio _ ind.volatility hvr ?_ hvol
  intro r hr
  split at hr
  · rename_i hcond
    cases hroc : ind.roc with
    | none => rw [hroc] at hr; exact absurd hr (by simp [oabs, omul])
    | some r0 =>
        rw [hroc] at hr
        have : oabs (some r0) = some |r0| := rfl
        rw [this] at hr
        injection hr with hr
        rw [← hr]
        positivity
  · injection hr with hr
    rw [← hr]

/-- The volatility indicator `atr / close * 100` of a window of at least 15
bars with positive closes is nonnegative whenever it is defined. -/
theorem volatility_nonneg (df : List Candle) (i : Ind)
    (hc : calculate_indicators df = .ok i)
    (hpos : ∀ b ∈ df, 0 < b.close) (hlen : 15 ≤ (sortAsc df).length) :
    ∀ w, i.volatility = some w → 0 ≤ w := by
  obtain ⟨lb, hlb, hhh, hll, hxh, hxl, hatr, hvr, hvol, hroc, hcl⟩ :=
    calculate_indicators_ok df i hc
  intro w hw
  rw [hvol] at hw
  obtain ⟨u, hundred, hu, h100, hweq⟩ := omul_eq_some _ _ _ hw
  obtain ⟨a, cl, ha, hcleq, hclne, hueq⟩ := odiv_eq_some _ _ _ hu
  rw [hatr] at ha
  obtain ⟨hlen14, haval⟩ := rollLast_eq_some _ _ _ _ ha
  have hage : 0 ≤ a := by
    rw [haval]
    apply listMean_nonneg
    apply lastN_trList_nonneg
    have h14 : donchian_atr_period = 14 := rfl
    rw [h14]
    have h15 : (15 : ℕ) ≤ (sortAsc df).length := hlen
    omega
  have hmemS : lb ∈ sortAsc df := List.mem_of_getLast?_eq_some hlb
  have hmem : lb ∈ df := by
    have hperm : List.Perm (sortAsc df) df := List.perm_insertionSort _ df
    exact hperm.mem_iff.mp hmemS
  have hclpos : 0 < lb.close := hpos lb hmem
  injection hcleq with hcleq
  injection h100 with h100
  have huge : 0 ≤ u := by
    rw [hueq, ← hcleq]
    exact div_nonneg hage (le_of_lt hclpos)
  rw [hweq, ← h100]
  exact mul_nonneg huge (by norm_num)

/-- C10: on every well-formed window — strictly increasing timestamps, each
close between its bar's low and high — the Donchian pipeline never returns a
buy and never returns a sell, because the rolling channel bounds include the
current bar, so the current close can never strictly exceed the upper bound
nor fall strictly below the lower bound. -/
theorem donchian_channel_includes_current_bar :
    ∀ (df : List Candle) (d : Det),
      df.Pairwise (fun a b => a.timestamp < b.timestamp) →
      (∀ b ∈ df, b.low ≤ b.close ∧ b.close ≤ b.high) →
      donchianPipeline df = .ok d →
      d.signal ≠ "buy" ∧ d.signal ≠ "sell" := by
  intro df d hP hW h
  unfold donchianPipeline at h
  cases hc : calculate_indicators df with
  | error e => rw [hc, error_bind] at h; exact absurd h (by simp)
  | ok i =>
  rw [hc, ok_bind] at h
  obtain ⟨lb, hlb, hhh, hll, hxh, hxl, hatr, hvr, hvol, hroc, hcl⟩ :=
    calculate_indicators_ok df i hc
  have hAsc := sortAsc_of_strictAsc df hP
  rw [hAsc] at hlb hhh hll hxh hxl
  obtain ⟨b, rest, t, hdesc, htrip, hd⟩ := generate_signals_ok df i d h
  have hDesc := sortDesc_of_strictAsc df hP
  rw [hDesc] at hdesc
  have hbL : df.getLast? = some b := by
    rw [List.getLast?_eq_head?_reverse, hdesc]; rfl
  have hmem : b ∈ df := List.mem_of_getLast?_eq_some hbL
  obtain ⟨hlo, hhi⟩ := hW b hmem
  have hmapH : (df.map (·.high)).getLast? = some b.high := by
    rw [List.getLast?_map, hbL]; rfl
  have hmapL : (df.map (·.low)).getLast? = some b.low := by
    rw [List.getLast?_map, hbL]; rfl
  have h1 : oGT (some b.close) i.highest_high = false := by
    rw [hhh]
    exact oGT_rollLast_max_false _ b.close b.high hmapH hhi donchian_period (by decide)
  have h2 : oLT (some b.close) i.lowest_low = false := by
    rw [hll]
    exact oLT_rollLast_min_false _ b.close b.low hmapL hlo donchian_period (by decide)
  have h3 : oLT (some b.close) i.exit_low = false := by
    rw [hxl]
    exact oLT_rollLast_min_false _ b.close b.low hmapL hlo donchian_exit_period (by decide)
  have h4 : oGT (some b.close) i.exit_high = false := by
    rw [hxh]
    exact oGT_rollLast_max_false _ b.close b.high hmapH hhi donchian_exit_period (by decide)
  obtain ⟨sg, stg, rsn⟩ := t
  have hcases := signalTriple_no_cross b.close (prevClose rest) i h1 h2 h3 h4 sg stg rsn htrip
  have hsig : d.signal = sg := by rw [hd]; rfl
  rcases hcases with hx | hx | hx <;> rw [hsig, hx] <;> exact ⟨by decide, by decide⟩

/-- C4: on every window with positive closes, a successful run of the
Donchian pipeline produces a defined strength in `[0, 1]` — buy/sell
strengths are capped at 0.9, exits are 0.7, weak signals 0.3, neutral 0. -/
theorem donchian_strength_in_unit_interval :
    ∀ (df : List Candle), (∀ b ∈ df, 0 < b.close) →
      ∀ d : Det, donchianPipeline df = .ok d →
      ∃ s, d.strength = some s ∧ 0 ≤ s ∧ s ≤ 1 := by
  intro df hpos d h
  unfold donchianPipeline at h
  cases hc : calculate_indicators df with
  | error e => rw [hc, error_bind] at h; exact absurd h (by simp)
  | ok i =>
  rw [hc, ok_bind] at h
  obtain ⟨b, rest, t, hdesc, htrip, hd⟩ := generate_signals_ok df i d h
  obtain ⟨sg, stg, rsn⟩ := t
  have hstr : d.strength = stg := by rw [hd]; rfl
  rcases signalTriple_ok_cases _ _ _ _ _ _ htrip with
    ⟨hsg, hstg, hcond⟩ | ⟨hsg, hstg, hcond⟩ | hstg | hstg | hstg
  · obtain ⟨hcc, hvr⟩ := condBuy_ok_true _ _ _ _ _ hcond
    obtain ⟨lb, hlb, hhh, hll, hxh, hxl, hatr, hvrdef, hvol, hroc, hcl⟩ :=
      calculate_indicators_ok df i hc
    obtain ⟨ccv, M, hccv, hM, hlt⟩ := oGT_eq_true _ _ hcc
    rw [hhh] at hM
    obtain ⟨hlen20, _⟩ := rollLast_eq_some _ _ _ _ hM
    have hlen : 15 ≤ (sortAsc df).length := by
      rw [List.length_map] at hlen20
      have h20 : donchian_period = 20 := rfl
      omega
    obtain ⟨s, hs, h0, h9⟩ :=
      buyStrength_bound i hvr (volatility_nonneg df i hc hpos hlen)
    exact ⟨s, by rw [hstr, hstg, hs], h0, le_trans h9 (by norm_num)⟩
  · obtain ⟨hcc, hvr⟩ := condSell_ok_true _ _ _ _ _ hcond
    obtain ⟨lb, hlb, hhh, hll, hxh, hxl, hatr, hvrdef, hvol, hroc, hcl⟩ :=
      calculate_indicators_ok df i hc
    obtain ⟨ccv, m, hccv, hm, hlt⟩ := oLT_eq_true _ _ hcc
    rw [hll] at hm
    obtain ⟨hlen20, _⟩ := rollLast_eq_some _ _ _ _ hm
    have hlen : 15 ≤ (sortAsc df).length := by
      rw [List.length_map] at hlen20
      have h20 : donchian_period = 20 := rfl
      omega
    obtain ⟨s, hs, h0, h9⟩ :=
      sellStrength_bound i hvr (volatility_nonneg df i hc hpos hlen)
    exact ⟨s, by rw [hstr, hstg, hs], h0, le_trans h9 (by norm_num)⟩
  · exact ⟨7/10, by rw [hstr, hstg], by norm_num, by norm_num⟩
  · exact ⟨3/10, by rw [hstr, hstg], by norm_num, by norm_num⟩
  · exact ⟨0, by rw [hstr, hstg], by norm_num, by norm_num⟩

deriving instance DecidableEq for Except

/-! ### The literal breakout scenario (spec §8) -/

/-- A 25-bar ascending window realizing the spec's breakout scenario: bar 24
(index 23) closes at 123, the high of the prior 20 bars; bar 25 closes 1%
above it at 124.23; the last volume makes the computed volume ratio exactly
2.0. -/
def w25 : List Candle :=
  (List.range 25).map fun i =>
    if i = 24 then
      { timestamp := 24, opn := 123, high := 12423/100, low := 123,
        close := 12423/100, volume := 19/9 }
    else
      { timestamp := (i : ℚ), opn := 99 + (i : ℚ), high := 100 + (i : ℚ),
        low := 99 + (i : ℚ), close := 100 + (i : ℚ), volume := 1 }

/-- C1 (code bug): on the literal 25-bar breakout scenario — bar 24's close
equal to the prior 20-bar high (123), bar 25's close 1% above it, computed
volume ratio exactly 2.0 — the code returns `neutral` with strength 0, not
`buy`: the 20-bar rolling channel includes the current bar (its upper bound
is 124.23, the current close itself), the trend filter is `False` because the
50-bar SMA is undefined on 25 bars, and `analyze` rejects the window outright
since `min_required_candles()` is 30. -/
theorem donchian_breakout_scenario_bug :
    ((w25.map (·.close))[23]? = some 123 ∧
      listMax (lastN 20 ((w25.take 24).map (·.high))) = 123 ∧
      (w25.map (·.close))[24]? = some ((101/100) * 123)) ∧
    (donchianPipeline w25).map Det.signal = .ok "neutral" ∧
    ((donchianPipeline w25).map fun d => d.strength) = .ok (some 0) ∧
    (calculate_indicators w25).map Ind.volume_ratio = .ok (some 2) ∧
    (calculate_indicators w25).map Ind.trend_up = .ok false ∧
    (calculate_indicators w25).map Ind.highest_high = .ok (some (12423/100)) ∧
    (analyzeDonchian w25 "BTCUSDT" st0 0).1 =
      some { signal := "neutral", strength := some 0, indicators := .emptyDict,
             timestamp := 0, symbol := "BTCUSDT", timeframe := "15m",
             strategy := "DonchianChannel", error := some "Zu wenig Daten" } := by
  set_option maxRecDepth 100000 in decide

/-! ### Analyze orchestration: the C2/C3/C9 properties -/

/-- C2 (counterexample): on the empty window, `analyze` returns the neutral
zero-strength record, but that record carries no `error` tag — the empty
branch of the source builds its dictionary without any explanatory reason,
contradicting the claim that every too-short window is tagged with one. -/
theorem analyze_empty_window_untagged :
    (analyzeDonchian [] "BTCUSDT" st0 7).1 =
      some { signal := "neutral", strength := some 0, indicators := .emptyDict,
             timestamp := 7, symbol := "BTCUSDT", timeframe := "15m",
             strategy := "DonchianChannel", error := none } ∧
    ((analyzeDonchian [] "BTCUSDT" st0 7).1.map AnalyzeResult.error) = some none :=
  ⟨rfl, rfl⟩

/-- C2 (amended): for every window shorter than `min_required_candles`
(30), and for every choice of the abstract indicator and signal methods,
`analyze` returns the neutral record with strength 0 without touching the
caches — so neither method is invoked — and the record carries the
explanatory `error` tag exactly when the window is nonempty (the empty-window
record is untagged). -/
theorem analyze_short_window_neutral :
    ∀ (calcInd : List Candle → Except String Ind)
      (gen : List Candle → Option Ind → Except String Det)
      (tf nm : String) (df : List Candle) (symbol : String) (st : StratState) (now : ℕ),
      df.length < get_min_required_candles →
      analyzeGen calcInd gen get_min_required_candles tf nm df symbol st now =
        (some { signal := "neutral", strength := some 0, indicators := .emptyDict,
                timestamp := now, symbol := symbol, timeframe := tf, strategy := nm,
                error := if df.isEmpty then none else some "Zu wenig Daten" }, st) := by
  intro calcInd gen tf nm df symbol st now hlen
  unfold analyzeGen
  by_cases hE : df.isEmpty
  · simp [hE]
  · simp [hE, hlen]

/-- A single unit bar, below every window requirement. -/
def oneBar : Candle :=
  { timestamp := 0, opn := 1, high := 1, low := 1, close := 1, volume := 1 }

/-- C2 witness: a one-bar window is below the 30-candle minimum and gets the
tagged neutral record back, with the caches untouched. -/
theorem analyze_short_window_neutral_witness :
    ([oneBar].length < get_min_required_candles) ∧
    analyzeGen calculate_indicators donchianGenGuard get_min_required_candles "15m"
        "DonchianChannel" [oneBar] "BTCUSDT" st0 3 =
      (some { signal := "neutral", strength := some 0, indicators := .emptyDict,
              timestamp := 3, symbol := "BTCUSDT", timeframe := "15m",
              strategy := "DonchianChannel",
              error := if ([oneBar] : List Candle).isEmpty
                       then none else some "Zu wenig Daten" }, st0) :=
  ⟨by decide,
   analyze_short_window_neutral calculate_indicators donchianGenGuard "15m"
     "DonchianChannel" [oneBar] "BTCUSDT" st0 3 (by decide)⟩

/-- A 30-bar window, long enough to pass the `min_required_candles` check. -/
def df30 : List Candle :=
  (List.range 30).map fun i =>
    { timestamp := (i : ℚ), opn := 1, high := 2, low := 1, close := 2, volume := 1 }

/-- C3 (counterexample): when the decorated indicator computation raises
(modelled by an erroring `calcInd`), `analyze` on a long-enough window
returns Python's `None` — not a neutral signal record carrying a reason: the
`handle_errors` decorator swallows the cascade and yields `None`. -/
theorem analyze_error_not_neutral_signal :
    (analyzeGen (fun _ => .error "boom") donchianGenGuard get_min_required_candles
        "15m" "DonchianChannel" df30 "BTCUSDT" st0 0).1 = none := by
  rfl

/-- C3 (amended): an exception inside indicator computation or signal
generation never propagates out of `analyze` — the result is well-defined —
but the analysis returns `None` rather than a neutral signal: with a raising
`calculate_indicators` the decorated chain collapses to `None`, and likewise
with a raising `generate_signals`. -/
theorem analyze_internal_error_returns_none :
    ∀ (df : List Candle) (symbol : String) (st : StratState) (now : ℕ) (msg : String),
      get_min_required_candles ≤ df.length →
      (analyzeGen (fun _ => .error msg) donchianGenGuard get_min_required_candles
          "15m" "DonchianChannel" df symbol st now).1 = none ∧
      (analyzeGen calculate_indicators (fun _ _ => .error msg) get_min_required_candles
          "15m" "DonchianChannel" df symbol st now).1 = none := by
  intro df symbol st now msg hlen
  have hE : ¬ (df.isEmpty = true) := by
    cases df with
    | nil => simp [get_min_required_candles] at hlen
    | cons a t => simp
  have hnl : ¬ (df.length < get_min_required_candles) := not_lt.mpr hlen
  constructor
  · unfold analyzeGen
    rw [if_neg hE, if_neg hnl]
    rfl
  · unfold analyzeGen
    rw [if_neg hE, if_neg hnl]
    rfl

/-- C3 witness: at the concrete 30-bar window, both failure modes yield
`None`. -/
theorem analyze_internal_error_returns_none_witness :
    (get_min_required_candles ≤ df30.length) ∧
    ((analyzeGen (fun _ => .error "boom") donchianGenGuard get_min_required_candles
        "15m" "DonchianChannel" df30 "X" st0 0).1 = none ∧
     (analyzeGen calculate_indicators (fun _ _ => .error "boom") get_min_required_candles
        "15m" "DonchianChannel" df30 "X" st0 0).1 = none) :=
  ⟨by decide, analyze_internal_error_returns_none df30 "X" st0 0 "boom" (by decide)⟩

/-- C9: the per-symbol cached state written by `analyze` is never partially
updated: either the call returned early and the caches are exactly as
before, or the symbol's indicator entry, its signal entry — computed by
`generate_signals` from those very indicators — and its update time were all
replaced by this call, including when the analysis failed (the entries then
hold Python's `None`).  No caller ever observes new indicators paired with
the previous signal. -/
theorem analyze_cache_replaced_together :
    ∀ (calcInd : List Candle → Except String Ind)
      (gen : List Candle → Option Ind → Except String Det)
      (minReq : ℕ) (tf nm : String) (df : List Candle) (symbol : String)
      (st : StratState) (now : ℕ),
      (analyzeGen calcInd gen minReq tf nm df symbol st now).2 = st ∨
      (∃ i : Option Ind,
        (analyzeGen calcInd gen minReq tf nm df symbol st now).2.indicators symbol = some i ∧
        (analyzeGen calcInd gen minReq tf nm df symbol st now).2.cached_signals symbol
          = some (handleErrors (gen (sortDesc df) i)) ∧
        (analyzeGen calcInd gen minReq tf nm df symbol st now).2.last_update_time symbol
          = some now) := by
  intro calcInd gen minReq tf nm df symbol st now
  by_cases hE : df.isEmpty
  · left; simp [analyzeGen, hE]
  · by_cases hlen : df.length < minReq
    · left; simp [analyzeGen, hE, hlen]
    · right
      refine ⟨handleErrors (calcInd (sortDesc df)), ?_, ?_, ?_⟩ <;>
        simp [analyzeGen, hE, hlen, analyzeMainState, Function.update_same]

/-! ### Multi-timeframe confirmation: C5 -/

/-- C5 (code bug): with coarser timeframes selected (base "15"), the
confirmation loop calls `analyze(symbol, interval)` although `analyze`'s
signature is `analyze(df, symbol)`; `df.empty` on the symbol string raises,
`handle_errors` turns the per-timeframe analysis into `None`, the subsequent
`result.get` raises, and the method returns `confirmed=False` with an error —
never the equal-or-neutral counting with `confidence = confirmations/count`.
With zero selected timeframes (base "D") it returns `confirmed=True` but the
early-return dictionary has no `confidence` key at all (the `1.0` default sits
in an unreachable branch), not `confidence = 1.0`. -/
theorem multi_timeframe_confirmation_bug :
    check_multi_timeframe_confirmation "BTCUSDT" "15" "buy" st0 0 =
      { confirmed := false, confidence := none, confirmations := none,
        total_timeframes := none,
        error := some "AttributeError: NoneType object has no attribute get" } ∧
    check_multi_timeframe_confirmation "BTCUSDT" "D" "buy" st0 0 =
      { confirmed := true, confidence := none, confirmations := some 0,
        total_timeframes := none, error := none } :=
  ⟨rfl, rfl⟩

/-! ### Position sizing: C6 and C7 -/

/-- C6: position sizing divides the risk budget by the stop distance, caps
the size by `account_size * max_risk_percent/100 / |price - stop|` when an
account size is supplied, and rounds with a precision that decreases as the
price grows; in particular price 100, stop 95, risk 500 gives
`risk_per_unit = 5` and `position_size = 100`, and adding account size 1000
with `max_risk_percent = 1` gives the cap `max_risk_amount = 10` and
`position_size = 2`. -/
theorem calculate_position_size_spec :
    (calculate_position_size 100 95 500 none 1 =
      { position_size := 100, risk_per_unit := some 5, actual_risk_amount := some 500,
        risk_percent := none, entry_price := some 100, stop_loss := some 95,
        error := none }) ∧
    (calculate_position_size 100 95 500 (some 1000) 1 =
      { position_size := 2, risk_per_unit := some 5, actual_risk_amount := some 10,
        risk_percent := some 1, entry_price := some 100, stop_loss := some 95,
        error := none }) ∧
    ((1000 : ℚ) * (1 / 100) = 10) ∧
    (∀ p s r m : ℚ, |p - s| ≠ 0 →
      0 < pyRound (r / |p - s|) (roundPrecision p) →
      (calculate_position_size p s r none m).position_size
        = pyRound (r / |p - s|) (roundPrecision p)) ∧
    (∀ p s r a m : ℚ, sizeBeforeRound p s r (some a) m
        = min (r / |p - s|) (a * (m / 100) / |p - s|)) ∧
    (∀ p q : ℚ, p ≤ q → roundPrecision q ≤ roundPrecision p) := by
  refine ⟨by decide, by decide, by decide, ?_, ?_, ?_⟩
  · intro p s r m hd hpos
    unfold calculate_position_size
    have hd' : ¬ (|p - s| ≤ 0) := fun hle => hd (le_antisymm hle (abs_nonneg _))
    rw [if_neg hd']
    have hsb : sizeBeforeRound p s r none m = r / |p - s| := rfl
    rw [hsb, if_neg (not_le.mpr hpos)]
  · intro p s r a m
    show (if r / |p - s| > a * (m / 100) / |p - s|
          then a * (m / 100) / |p - s| else r / |p - s|) = _
    split_ifs with h
    · rw [min_eq_right (le_of_lt h)]
    · rw [min_eq_left (not_lt.mp h)]
  · intro p q hpq
    unfold roundPrecision
    split_ifs <;> try omega
    all_goals linarith

/-- C6 witness: a sub-1 price rounds at 3 decimals (price 1/2, stop 2/5,
risk 1 gives size 10), and the precision is monotone from price 1 to 2. -/
theorem calculate_position_size_spec_witness :
    (|(1/2 : ℚ) - 2/5| ≠ 0) ∧
    (0 < pyRound (1 / |(1/2 : ℚ) - 2/5|) (roundPrecision (1/2))) ∧
    ((calculate_position_size (1/2) (2/5) 1 none 1).position_size
      = pyRound (1 / |(1/2 : ℚ) - 2/5|) (roundPrecision (1/2))) ∧
    ((1 : ℚ) ≤ 2) ∧ (roundPrecision 2 ≤ roundPrecision 1) :=
  ⟨by decide, by decide,
   calculate_position_size_spec.2.2.2.1 (1/2) (2/5) 1 1 (by decide) (by decide),
   by decide,
   calculate_position_size_spec.2.2.2.2.2 1 2 (by decide)⟩

/-- C7: degenerate inputs are rejected as result values, never raised: a
zero stop distance returns the zero-size record with the explicit reason
string, and whenever the computed size rounds to zero or below the zero-size
record with its own reason string is returned.  (`calculate_position_size`
is a total function: no input raises.) -/
theorem position_sizing_degenerate_rejected :
    ∀ (p s r : ℚ) (a : Option ℚ) (m : ℚ),
      (|p - s| = 0 →
        calculate_position_size p s r a m
          = sizingError "Stop-Loss ist zu nah am Eintrittspreis") ∧
      (|p - s| ≠ 0 →
        pyRound (sizeBeforeRound p s r a m) (roundPrecision p) ≤ 0 →
        calculate_position_size p s r a m
          = sizingError "Berechnete Positionsgröße ist zu klein") := by
  intro p s r a m
  constructor
  · intro h0
    unfold calculate_position_size
    rw [if_pos (le_of_eq h0)]
  · intro hne hle
    unfold calculate_position_size
    have hd' : ¬ (|p - s| ≤ 0) := fun hle' => hne (le_antisymm hle' (abs_nonneg _))
    rw [if_neg hd', if_pos hle]

/-- C7 witness: price equal to stop is rejected with the stop-distance
reason; price 2000, stop 1999, risk 0.4 rounds to zero whole units and is
rejected with the too-small reason. -/
theorem position_sizing_degenerate_rejected_witness :
    (|(100 : ℚ) - 100| = 0) ∧
    (calculate_position_size 100 100 5 none 1
      = sizingError "Stop-Loss ist zu nah am Eintrittspreis") ∧
    (|(2000 : ℚ) - 1999| ≠ 0) ∧
    (pyRound (sizeBeforeRound 2000 1999 (2/5) none 1) (roundPrecision 2000) ≤ 0) ∧
    (calculate_position_size 2000 1999 (2/5) none 1
      = sizingError "Berechnete Positionsgröße ist zu klein") :=
  ⟨by decide,
   (position_sizing_degenerate_rejected 100 100 5 none 1).1 (by decide),
   by decide, by decide,
   (position_sizing_degenerate_rejected 2000 1999 (2/5) none 1).2 (by decide) (by decide)⟩

/-! ### The connection monitor: C8 -/

/-- The sleep emitted by the `k`-th consecutive failure starting from `a`
prior failures: `reconnect_interval`, doubled once the counter reaches
`max_consecutive_failures`. -/
def failSleep (a k : ℕ) : ℕ :=
  if max_consecutive_failures ≤ a + k then reconnect_interval * 2 else reconnect_interval

theorem failSleep_shift (a k : ℕ) : failSleep (a + 1) k = failSleep a (k + 1) := by
  unfold failSleep
  rw [show a + 1 + k = a + (k + 1) from by omega]

theorem failSleep_mono (a k k' : ℕ) (h : k ≤ k') : failSleep a k ≤ failSleep a k' := by
  unfold failSleep reconnect_interval max_consecutive_failures
  split_ifs <;> omega

/-- A failure tick increments the counter and sleeps `failSleep`, with the
critical report exactly at or beyond the failure cap. -/
theorem monitorTick_failure (s : WsState) (now : ℕ) :
    monitorTick s false false now =
      ({ s with reconnect_attempts := s.reconnect_attempts + 1 },
       { sleep := failSleep s.reconnect_attempts 1,
         critical := decide (max_consecutive_failures ≤ s.reconnect_attempts + 1),
         pinged := false }) := by
  unfold monitorTick failSleep
  by_cases h : max_consecutive_failures ≤ s.reconnect_attempts + 1
  · simp [h]
  · simp [h]

theorem runFailures_eq_map :
    ∀ (n : ℕ) (s : WsState),
      runFailures s n = (List.range n).map fun i => failSleep s.reconnect_attempts (i + 1) := by
  intro n
  induction n with
  | zero => intro s; rfl
  | succ n ih =>
      intro s
      show (monitorTick s false false 0).2.sleep
          :: runFailures (monitorTick s false false 0).1 n = _
      rw [monitorTick_failure, ih]
      rw [List.range_succ_eq_map, List.map_cons, List.map_map]
      show failSleep s.reconnect_attempts 1 :: _ = failSleep s.reconnect_attempts (0 + 1) :: _
      rw [show (0 : ℕ) + 1 = 1 from rfl]
      congr 1
      apply List.map_congr_left
      intro i _
      show failSleep (s.reconnect_attempts + 1) (i + 1) = failSleep s.reconnect_attempts (i + 1 + 1)
      exact failSleep_shift s.reconnect_attempts (i + 1)

theorem runFailures_pairwise (s : WsState) (n : ℕ) :
    List.Pairwise (· ≤ ·) (runFailures s n) := by
  rw [runFailures_eq_map]
  rw [List.pairwise_map]
  exact (List.pairwise_lt_range n).imp
    (fun hij => failSleep_mono _ _ _ (by omega))

/-- C8: the monitor's backoff behaviour — over any run of consecutive
reconnect failures the sleep durations are non-decreasing; once the failure
counter reaches `max_consecutive_failures` (5) the tick emits a
critical-level report and sleeps the doubled interval, below the cap it
sleeps the plain interval without a critical report; no iteration ever
clears the running flag (retries stop only when `close()` does); and a
reconnect success resets the failure counter to 0. -/
theorem monitor_backoff_spec :
    (∀ (s : WsState) (n : ℕ), List.Pairwise (· ≤ ·) (runFailures s n)) ∧
    (∀ (s : WsState) (now : ℕ), max_consecutive_failures ≤ s.reconnect_attempts + 1 →
      (monitorTick s false false now).2.critical = true ∧
      (monitorTick s false false now).2.sleep = reconnect_interval * 2) ∧
    (∀ (s : WsState) (now : ℕ), s.reconnect_attempts + 1 < max_consecutive_failures →
      (monitorTick s false false now).2.critical = false ∧
      (monitorTick s false false now).2.sleep = reconnect_interval) ∧
    (∀ (s : WsState) (ic cs : Bool) (now : ℕ),
      (monitorTick s ic cs now).1.is_running = s.is_running) ∧
    (∀ (s : WsState) (now : ℕ),
      (monitorTick s false true now).1.reconnect_attempts = 0) := by
  refine ⟨runFailures_pairwise, ?_, ?_, ?_, ?_⟩
  · intro s now h
    rw [monitorTick_failure]
    exact ⟨by simp [h], by simp [failSleep, h]⟩
  · intro s now h
    have h' : ¬ (max_consecutive_failures ≤ s.reconnect_attempts + 1) := by omega
    rw [monitorTick_failure]
    exact ⟨by simp [h'], by simp [failSleep, h']⟩
  · intro s ic cs now
    unfold monitorTick
    split_ifs <;> rfl
  · intro s now
    unfold monitorTick
    split_ifs <;> simp_all

/-- C8 witness: from 4 prior failures the fifth failure is critical with a
60-second sleep; from 1 prior failure the next failure sleeps 30 seconds
without a critical report. -/
theorem monitor_backoff_spec_witness :
    (max_consecutive_failures ≤ (⟨4, true, 0⟩ : WsState).reconnect_attempts + 1) ∧
    ((monitorTick ⟨4, true, 0⟩ false false 0).2.critical = true ∧
     (monitorTick ⟨4, true, 0⟩ false false 0).2.sleep = reconnect_interval * 2) ∧
    ((⟨1, true, 0⟩ : WsState).reconnect_attempts + 1 < max_consecutive_failures) ∧
    ((monitorTick ⟨1, true, 0⟩ false false 0).2.critical = false ∧
     (monitorTick ⟨1, true, 0⟩ false false 0).2.sleep = reconnect_interval) :=
  ⟨by decide, monitor_backoff_spec.2.1 ⟨4, true, 0⟩ 0 (by decide),
   by decide, monitor_backoff_spec.2.2.1 ⟨1, true, 0⟩ 0 (by decide)⟩

/-! ### Witness windows for the generic strategy theorems -/

/-- A two-bar well-formed ascending window. -/
def wC10 : List Candle :=
  [{ timestamp := 0, opn := 1, high := 2, low := 1, close := 2, volume := 5 },
   { timestamp := 1, opn := 2, high := 3, low := 2, close := 3, volume := 5 }]

/-- The pipeline's output on `wC10`: every indicator window is unfilled, so
the chain falls through to neutral. -/
def dC10 : Det :=
  { signal := "neutral", strength := some 0, reason := "Keine klaren Signale",
    price := 3, highest_high := none, lowest_low := none, exit_high := none,
    exit_low := none, stop_loss_level := none, take_profit_level := none,
    atr := none, volume_ratio := none, trend_up := false,
    risk_reward_ratio := 3/2,
    last_candle := some { timestamp := 1, opn := 2, high := 3, low := 2,
                          close := 3, volume := 5 } }

/-- C10 witness: the two-bar window satisfies both hypotheses and the
pipeline's concrete output is neither buy nor sell. -/
theorem donchian_channel_includes_current_bar_witness :
    (wC10.Pairwise (fun a b => a.timestamp < b.timestamp)) ∧
    (∀ b ∈ wC10, b.low ≤ b.close ∧ b.close ≤ b.high) ∧
    (donchianPipeline wC10 = .ok dC10) ∧
    (dC10.signal ≠ "buy" ∧ dC10.signal ≠ "sell") :=
  ⟨by decide, by decide, by decide,
   donchian_channel_includes_current_bar wC10 dC10 (by decide) (by decide) (by decide)⟩

/-- A one-bar window with a positive close. -/
def wC4 : List Candle :=
  [{ timestamp := 0, opn := 1, high := 2, low := 1, close := 2, volume := 7 }]

/-- The pipeline's output on `wC4`. -/
def dC4 : Det :=
  { signal := "neutral", strength := some 0, reason := "Keine klaren Signale",
    price := 2, highest_high := none, lowest_low := none, exit_high := none,
    exit_low := none, stop_loss_level := none, take_profit_level := none,
    atr := none, volume_ratio := none, trend_up := false,
    risk_reward_ratio := 3/2,
    last_candle := some { timestamp := 0, opn := 1, high := 2, low := 1,
                          close := 2, volume := 7 } }

/-- C4 witness: on the concrete window the strength is defined and inside
the unit interval. -/
theorem donchian_strength_in_unit_interval_witness :
    (∀ b ∈ wC4, 0 < b.close) ∧
    (donchianPipeline wC4 = .ok dC4) ∧
    (∃ s, dC4.strength = some s ∧ 0 ≤ s ∧ s ≤ 1) :=
  ⟨by decide, by decide,
   donchian_strength_in_unit_interval wC4 (by decide) dC4 (by decide)⟩
